import Mathlib

/-!
Shallow embedding of the interrupt-aware run loop of `test_pipeline.py`
(functions `check_for_interrupt`, `run_with_streaming_and_interrupt`, and the
result-extraction logic of `main`).

Modelling conventions:
* `output_fields` values and `InterruptRequest.value` map entries are modelled
  as strings; Python truthiness of such a value is "the string is non-empty".
* A streamed node output that is not a dict is modelled as `none`
  (mirroring the `isinstance(node_output, dict)` guard).
* `hasattr(task, 'interrupts')` and `hasattr(interrupt_info, 'value')` are
  modelled by `Option` fields (`none` = attribute absent).
* The engine is external: one streaming pass is a `PassBehavior` giving the
  events `astream` yields (or the exception it raises) and the `aget_state`
  snapshot observed after the pass.  Interactive `input()` is an oracle
  `Nat → String` indexed by how many prompts happened so far.
* All printing in the source is observational and not modelled.
-/

namespace Pipeline

/-- A field map (Python dict with string keys and string values);
lookup is by first occurrence, keys are unique in practice. -/
abbrev Fields := List (String × String)

/-- An interrupt payload: either a dict (map-shaped) or a bare string
(standing for any non-dict value, as in the `isinstance` check). -/
inductive Payload where
  | map (entries : Fields)
  | str (s : String)
deriving DecidableEq, Repr

/-- Python truthiness of a payload: empty dict and empty string are falsy. -/
def Payload.isTruthy : Payload → Bool
  | .map entries => !entries.isEmpty
  | .str s => !(s == "")

/-- One `Interrupt` record attached to a task; `value` is `none` when the
object has no `value` attribute (`hasattr(interrupt_info, 'value')`). -/
structure InterruptInfo where
  value : Option Payload
deriving DecidableEq, Repr

/-- One pending task descriptor; `interrupts` is `none` when the task has no
`interrupts` attribute (`hasattr(task, 'interrupts')`). -/
structure Task where
  interrupts : Option (List InterruptInfo)
deriving DecidableEq, Repr

/-- Persisted state snapshot of a thread (`graph.aget_state`). -/
structure ThreadState where
  values : Fields
  tasks : List Task
deriving DecidableEq, Repr

/-- Inner scan of `check_for_interrupt`: for each interrupt record of one
task, return its `value` if the attribute is present. -/
def firstValueOf : List InterruptInfo → Option Payload
  | [] => none
  | i :: rest =>
    match i.value with
    | some v => some v
    | none => firstValueOf rest

/-- Outer scan of `check_for_interrupt` over `state.tasks`. -/
def scanTasks : List Task → Option Payload
  | [] => none
  | t :: rest =>
    match t.interrupts with
    | some ints =>
      if ints.isEmpty then scanTasks rest
      else
        match firstValueOf ints with
        | some v => some v
        | none => scanTasks rest
    | none => scanTasks rest

/-- `check_for_interrupt(graph, thread_config)`: the argument is the result of
`graph.aget_state` (`none` when the engine has no record of the thread).
`if state and state.tasks:` — an absent state or an empty task tuple short
circuits to `None`. -/
def check_for_interrupt (st? : Option ThreadState) : Option Payload :=
  match st? with
  | none => none
  | some st => if st.tasks.isEmpty then none else scanTasks st.tasks

/-- `"final_report" in node_output and node_output["final_report"]`. -/
def hasNonemptyFinal (f : Fields) : Bool :=
  match f.lookup "final_report" with
  | some v => !(v == "")
  | none => false

/-- A streamed node output: `none` models a non-dict value. -/
abbrev NodeOutput := Option Fields

/-- One streamed event: `(node_name, node_output)` pairs (`event.items()`). -/
abbrev Event := List (String × NodeOutput)

/-- Body of the per-node-output check inside the streaming loop:
`final_result` is overwritten by any dict output whose `final_report`
is present and truthy. -/
def updateFinal (acc : Option Fields) (o : NodeOutput) : Option Fields :=
  match o with
  | none => acc
  | some f => if hasNonemptyFinal f then some f else acc

/-- Processing of one streamed event (the inner `for node_name, node_output`
loop), threading `final_result`. -/
def processEvent (acc : Option Fields) (ev : Event) : Option Fields :=
  ev.foldl (fun a p => updateFinal a p.2) acc

/-- Processing of one whole streaming pass (the `async for event` loop). -/
def processPass (acc : Option Fields) (evs : List Event) : Option Fields :=
  evs.foldl processEvent acc

/-- `auto_responses and interrupt_type in auto_responses`: the mapping must be
supplied and non-empty (Python truthiness of a dict) and contain the type. -/
def lookupAuto (auto : Option Fields) (ty : String) : Option String :=
  match auto with
  | none => none
  | some m => if m.isEmpty then none else m.lookup ty

/-- Python's `str.strip()`: remove leading and trailing whitespace
(executable model; `String.trim` does not reduce in the kernel). -/
def pyStrip (s : String) : String :=
  ⟨((s.data.dropWhile Char.isWhitespace).reverse.dropWhile Char.isWhitespace).reverse⟩

/-- Resolution of a map-shaped interrupt payload (lines 154–168): read the
type with default `"unknown"`; use the auto-response verbatim when available,
otherwise use the interactive text stripped of surrounding whitespace.  The
`Bool` records whether `input()` was consumed (interactive branch). -/
def resolveStep (entries : Fields) (auto : Option Fields) (uiText : String) :
    String × Bool :=
  let ty := (entries.lookup "type").getD "unknown"
  match lookupAuto auto ty with
  | some r => (r, false)
  | none => (pyStrip uiText, true)

/-- What `astream` produced in one pass (`Except.error` = exception raised
while streaming) together with the `aget_state` snapshot after the pass. -/
structure PassBehavior where
  events : Except String (List Event)
  state : Option ThreadState
deriving Repr

/-- An input fed to `graph.astream`: the fresh initial payload or a
`Command(resume=...)`. -/
inductive Input where
  | fresh (query : String)
  | resume (response : String)
deriving DecidableEq, Repr

/-- Record of one loop iteration that reached the interrupt check:
what `check_for_interrupt` returned and the resume response submitted
afterwards (if any). -/
structure IterRecord where
  detected : Option Payload
  resumed : Option String
deriving DecidableEq, Repr

/-- How the run loop ended. -/
inductive RunExit where
  /-- `break` in the `else` branch: no (truthy) interrupt, loop returns
  `final_result`. -/
  | completed (result : Option Fields)
  /-- `break` after a truthy non-dict payload ("Unable to handle this
  interrupt type automatically"); the raw payload is reported and
  `final_result` is returned. -/
  | unresolvable (payload : Payload) (result : Option Fields)
  /-- An exception propagated out of the loop (uncaught). -/
  | raised (e : String)
  /-- Model artifact: the engine script supplied no behavior for the next
  requested pass. -/
  | stuck
deriving DecidableEq, Repr

/-- Observable trace of one run of `run_with_streaming_and_interrupt`. -/
structure RunOutput where
  /-- every input fed to `astream`, in order -/
  inputs : List Input
  /-- all events observed while streaming, in order -/
  seen : List Event
  /-- one record per iteration that reached the interrupt check -/
  iters : List IterRecord
  exit : RunExit
deriving DecidableEq, Repr

/-- The `while True:` loop of `run_with_streaming_and_interrupt`, by recursion
on the engine script; `fr` is `final_result`, `k` counts `input()` prompts. -/
def runLoopAux (auto : Option Fields) (ui : Nat → String) :
    List PassBehavior → Input → Option Fields → Nat → RunOutput
  | [], inp, _, _ => ⟨[inp], [], [], .stuck⟩
  | p :: rest, inp, fr, k =>
    match p.events with
    | .error e => ⟨[inp], [], [], .raised e⟩
    | .ok evs =>
      let fr2 := processPass fr evs
      match check_for_interrupt p.state with
      | none => ⟨[inp], evs, [⟨none, none⟩], .completed fr2⟩
      | some pl =>
        if pl.isTruthy then
          match pl with
          | .map entries =>
            let step := resolveStep entries auto (ui k)
            let k2 := if step.2 then k + 1 else k
            let tail := runLoopAux auto ui rest (.resume step.1) fr2 k2
            ⟨inp :: tail.inputs, evs ++ tail.seen,
              ⟨some pl, some step.1⟩ :: tail.iters, tail.exit⟩
          | .str s =>
            ⟨[inp], evs, [⟨some (.str s), none⟩], .unresolvable (.str s) fr2⟩
        else
          ⟨[inp], evs, [⟨some pl, none⟩], .completed fr2⟩

/-- `run_with_streaming_and_interrupt(graph, query, thread_config,
auto_responses)`: the engine's behavior is the script, interactive input is
the oracle `ui`. -/
def run_with_streaming_and_interrupt (script : List PassBehavior)
    (query : String) (auto : Option Fields) (ui : Nat → String) : RunOutput :=
  runLoopAux auto ui script (.fresh query) none 0

/-- The value the Python function `return`s, when it returns normally
(both `break` paths return `final_result`). -/
def returnedResult : RunExit → Option (Option Fields)
  | .completed r => some r
  | .unresolvable _ r => some r
  | .raised _ => none
  | .stuck => none

/-- Fallback extraction in `main`: read `final_report` from the persisted
state (`final_state and final_state.values and "final_report" in
final_state.values`). -/
def fallbackExtract (fs : Option ThreadState) : Option String :=
  match fs with
  | none => none
  | some st =>
    if st.values.isEmpty then none else st.values.lookup "final_report"

/-- Result extraction in `main` (lines 265–287): prefer the loop's returned
`output_fields` when it is truthy and contains `final_report`; otherwise read
the persisted state. -/
def extract (result : Option Fields) (fs : Option ThreadState) :
    Option String :=
  match result with
  | none => fallbackExtract fs
  | some r =>
    if r.isEmpty then fallbackExtract fs
    else
      match r.lookup "final_report" with
      | some v => some v
      | none => fallbackExtract fs

/-! Claim-side definitions, worded from the spec, for the refinement-style
claims (to be compared with the source-side functions above). -/

/-- A streamed node output seen as a completion candidate: `some f` exactly
when it is a dict whose `final_report` key is present with a non-empty
value. -/
def completionOf (o : NodeOutput) : Option Fields :=
  match o with
  | some f => if hasNonemptyFinal f then some f else none
  | none => none

/-- All streamed `output_fields` whose `final_report` key is present with a
non-empty value, in stream order (spec wording for the candidate results). -/
def finalCandidates (seen : List Event) : List Fields :=
  (seen.flatMap fun ev => ev.map Prod.snd).filterMap completionOf

/-- Override semantics of the running `final_result` variable: a new
candidate replaces the old value, otherwise the old value is kept. -/
def overrideWith (acc x : Option Fields) : Option Fields :=
  match x with
  | some f => some f
  | none => acc

/-- Spec wording of the result: "the `output_fields` mapping of the most
recent streamed event whose `final_report` key is present with a non-empty
value", else `none`. -/
def lastFinal (seen : List Event) : Option Fields :=
  (finalCandidates seen).getLast?

/-- Spec wording of interrupt detection: "scan `tasks` in order; for the first
task carrying a non-empty interrupt list, return its first
`InterruptRequest.value`; if no task carries one, return `None`". -/
def firstTaskInterrupt (tasks : List Task) : Option Payload :=
  match tasks.find? (fun t => !(t.interrupts.getD []).isEmpty) with
  | some t => ((t.interrupts.getD []).head?).bind (·.value)
  | none => none

/-- Typing of the data model (§3): every task descriptor actually has an
`interrupts` attribute and every `InterruptRequest` has a `value` attribute;
the `hasattr` guards in the source generalize beyond this. -/
def TasksWellFormed (tasks : List Task) : Prop :=
  ∀ t ∈ tasks, ∃ l, t.interrupts = some l ∧ ∀ i ∈ l, ∃ p, i.value = some p

/-! Helper lemmas about the streaming fold. -/

theorem overrideWith_none (acc : Option Fields) : overrideWith acc none = acc := rfl

theorem overrideWith_some (acc : Option Fields) (f : Fields) :
    overrideWith acc (some f) = some f := rfl

theorem overrideWith_or (acc x y : Option Fields) :
    overrideWith (overrideWith acc x) y = overrideWith acc (y.or x) := by
  cases y <;> cases x <;> rfl

theorem updateFinal_eq (acc : Option Fields) (o : NodeOutput) :
    updateFinal acc o = overrideWith acc (completionOf o) := by
  cases o with
  | none => rfl
  | some f =>
    simp only [updateFinal, completionOf]
    cases hasNonemptyFinal f <;> rfl

theorem foldl_updateFinal (l : List NodeOutput) (acc : Option Fields) :
    l.foldl updateFinal acc = overrideWith acc (l.filterMap completionOf).getLast? := by
  induction l generalizing acc with
  | nil => rfl
  | cons o t ih =>
    rw [List.foldl_cons, ih, updateFinal_eq, overrideWith_or]
    congr 1
    cases h : completionOf o with
    | none => simp [List.filterMap_cons, h]
    | some f =>
      rw [List.filterMap_cons]
      simp only [h, List.getLast?_cons]
      cases (t.filterMap completionOf).getLast? <;> rfl

theorem processEvent_eq (acc : Option Fields) (ev : Event) :
    processEvent acc ev =
      overrideWith acc ((ev.map Prod.snd).filterMap completionOf).getLast? := by
  rw [processEvent, ← foldl_updateFinal, ← List.foldl_map]

theorem finalCandidates_cons (ev : Event) (evs : List Event) :
    finalCandidates (ev :: evs) =
      (ev.map Prod.snd).filterMap completionOf ++ finalCandidates evs := by
  simp [finalCandidates, List.filterMap_append]

theorem finalCandidates_append (l₁ l₂ : List Event) :
    finalCandidates (l₁ ++ l₂) = finalCandidates l₁ ++ finalCandidates l₂ := by
  simp [finalCandidates, List.filterMap_append]

theorem processPass_eq (evs : List Event) (acc : Option Fields) :
    processPass acc evs = overrideWith acc (lastFinal evs) := by
  induction evs generalizing acc with
  | nil => rfl
  | cons ev evs ih =>
    simp only [processPass] at ih ⊢
    rw [List.foldl_cons, ih, processEvent_eq, overrideWith_or]
    rw [lastFinal, lastFinal, finalCandidates_cons, List.getLast?_append]

theorem lastFinal_append (l₁ l₂ : List Event) :
    lastFinal (l₁ ++ l₂) = (lastFinal l₂).or (lastFinal l₁) := by
  rw [lastFinal, lastFinal, lastFinal, finalCandidates_append, List.getLast?_append]

theorem overrideWith_id (x : Option Fields) : overrideWith none x = x := by
  cases x <;> rfl

/-- Loop invariant: whenever the loop returns normally, the returned
`final_result` is the initial one overridden by the most recent completion
candidate among all events seen. -/
theorem runLoopAux_returned (auto : Option Fields) (ui : Nat → String) :
    ∀ (script : List PassBehavior) (inp : Input) (fr : Option Fields) (k : Nat)
      (r : Option Fields),
      returnedResult (runLoopAux auto ui script inp fr k).exit = some r →
      r = overrideWith fr (lastFinal (runLoopAux auto ui script inp fr k).seen) := by
  intro script
  induction script with
  | nil => intro inp fr k r h; simp [runLoopAux, returnedResult] at h
  | cons p rest ih =>
    intro inp fr k r h
    obtain ⟨events, state⟩ := p
    cases events with
    | error e => simp [runLoopAux, returnedResult] at h
    | ok evs =>
      simp only [runLoopAux] at h ⊢
      cases hd : check_for_interrupt state with
      | none =>
        simp only [hd, returnedResult, Option.some.injEq] at h ⊢
        rw [← h, processPass_eq]
      | some pl =>
        cases ht : pl.isTruthy with
        | false =>
          simp only [hd, ht, Bool.false_eq_true, if_false, returnedResult,
            Option.some.injEq] at h ⊢
          rw [← h, processPass_eq]
        | true =>
          cases pl with
          | str s =>
            simp only [hd, ht, if_true, returnedResult, Option.some.injEq] at h ⊢
            rw [← h, processPass_eq]
          | map entries =>
            simp only [hd, ht, if_true] at h ⊢
            have := ih (.resume (resolveStep entries auto (ui k)).1)
              (processPass fr evs)
              (if (resolveStep entries auto (ui k)).2 then k + 1 else k) r h
            rw [this, processPass_eq, lastFinal_append, ← overrideWith_or]

/-- C2: for every finite sequence of streamed events,
`run_with_streaming_and_interrupt` returns the `output_fields` mapping of the
most recent streamed event whose `final_report` key is present with a
non-empty value; if no streamed event across all passes contained a non-empty
`final_report`, it returns `none` (an event whose `final_report` is present
but empty does not become the result). -/
theorem C2_result_is_most_recent_final (script : List PassBehavior)
    (query : String) (auto : Option Fields) (ui : Nat → String)
    (r : Option Fields)
    (h : returnedResult
      (run_with_streaming_and_interrupt script query auto ui).exit = some r) :
    r = lastFinal (run_with_streaming_and_interrupt script query auto ui).seen := by
  have hx := runLoopAux_returned auto ui script (.fresh query) none 0 r h
  rw [hx, overrideWith_id]
  rfl

/-- Witness for C2: a run whose first pass streams an empty and then a
non-empty `final_report`, is interrupted, resumes, and streams another
non-empty `final_report`; the returned result is the most recent one. -/
theorem C2_result_is_most_recent_final_witness :
    some [("final_report", "Y")] =
      lastFinal (run_with_streaming_and_interrupt
        [⟨.ok [[("a", some [("final_report", "")]),
                ("b", some [("final_report", "X")])]],
          some ⟨[], [⟨some [⟨some (.map [("type", "t")])⟩]⟩]⟩⟩,
         ⟨.ok [[("c", some [("final_report", "Y")])]], none⟩]
        "q" (some [("t", "go")]) (fun _ => "")).seen :=
  C2_result_is_most_recent_final _ "q" _ _ _ (by decide)

/-- The inputs fed to the engine are the initial input followed by exactly
the resume commands recorded in the iteration trace, in order. -/
theorem runLoopAux_inputs (auto : Option Fields) (ui : Nat → String) :
    ∀ (script : List PassBehavior) (inp : Input) (fr : Option Fields) (k : Nat),
      (runLoopAux auto ui script inp fr k).inputs =
        inp :: ((runLoopAux auto ui script inp fr k).iters.filterMap
          (·.resumed)).map Input.resume := by
  intro script
  induction script with
  | nil => intro inp fr k; rfl
  | cons p rest ih =>
    intro inp fr k
    obtain ⟨events, state⟩ := p
    cases events with
    | error e => rfl
    | ok evs =>
      simp only [runLoopAux]
      cases hd : check_for_interrupt state with
      | none => simp [hd]
      | some pl =>
        cases ht : pl.isTruthy with
        | false => simp [hd, ht]
        | true =>
          cases pl with
          | str s => simp [hd, ht]
          | map entries =>
            simp only [hd, ht, if_true]
            rw [ih]
            rfl

/-- A resume response is recorded for an iteration exactly when detection
returned a (truthy) map-shaped payload in that iteration. -/
theorem runLoopAux_resumed_iff (auto : Option Fields) (ui : Nat → String) :
    ∀ (script : List PassBehavior) (inp : Input) (fr : Option Fields) (k : Nat)
      (it : IterRecord), it ∈ (runLoopAux auto ui script inp fr k).iters →
      (it.resumed.isSome ↔
        ∃ entries, it.detected = some (.map entries) ∧ entries ≠ []) := by
  intro script
  induction script with
  | nil => intro inp fr k it hit; simp [runLoopAux] at hit
  | cons p rest ih =>
    intro inp fr k it hit
    obtain ⟨events, state⟩ := p
    cases events with
    | error e => simp [runLoopAux] at hit
    | ok evs =>
      simp only [runLoopAux] at hit
      cases hd : check_for_interrupt state with
      | none =>
        simp only [hd, List.mem_singleton] at hit
        subst hit
        simp
      | some pl =>
        cases ht : pl.isTruthy with
        | false =>
          simp only [hd, ht, Bool.false_eq_true, if_false, List.mem_singleton] at hit
          subst hit
          simp only [Option.isSome_none, Bool.false_eq_true, false_iff]
          rintro ⟨entries, he, hne⟩
          obtain rfl : pl = .map entries := by injection he
          have hemp : entries.isEmpty = true := by simpa [Payload.isTruthy] using ht
          exact hne (List.isEmpty_iff.mp hemp)
        | true =>
          cases pl with
          | str s =>
            simp only [hd, ht, if_true, List.mem_singleton] at hit
            subst hit
            simp
          | map entries =>
            simp only [hd, ht, if_true, List.mem_cons] at hit
            rcases hit with rfl | hit
            · simp only [Option.isSome_some, true_iff]
              refine ⟨entries, rfl, ?_⟩
              simp only [Payload.isTruthy, Bool.not_eq_eq_eq_not, Bool.not_true] at ht
              exact fun hnil => by simp [hnil] at ht
            · exact ih _ _ _ it hit

/-- An iteration that detected a truthy non-map payload is the last one:
it records no resume, and the loop exits as unresolvable with that payload. -/
theorem runLoopAux_str_detected (auto : Option Fields) (ui : Nat → String) :
    ∀ (script : List PassBehavior) (inp : Input) (fr : Option Fields) (k : Nat)
      (s : String), s ≠ "" →
      ∀ it ∈ (runLoopAux auto ui script inp fr k).iters,
        it.detected = some (.str s) →
        it.resumed = none ∧
        (runLoopAux auto ui script inp fr k).iters.getLast? = some it ∧
        ∃ res, (runLoopAux auto ui script inp fr k).exit = .unresolvable (.str s) res := by
  intro script
  induction script with
  | nil => intro inp fr k s hs it hit; simp [runLoopAux] at hit
  | cons p rest ih =>
    intro inp fr k s hs it hit hdet
    obtain ⟨events, state⟩ := p
    cases events with
    | error e => simp [runLoopAux] at hit
    | ok evs =>
      simp only [runLoopAux] at hit ⊢
      cases hd : check_for_interrupt state with
      | none =>
        simp only [hd, List.mem_singleton] at hit
        subst hit
        simp at hdet
      | some pl =>
        cases ht : pl.isTruthy with
        | false =>
          simp only [hd, ht, Bool.false_eq_true, if_false, List.mem_singleton] at hit
          subst hit
          have hdet2 : some pl = some (Payload.str s) := hdet
          obtain rfl : pl = .str s := by injection hdet2
          have hzero : s = "" := by simpa [Payload.isTruthy] using ht
          exact absurd hzero hs
        | true =>
          cases pl with
          | str s2 =>
            simp only [hd, ht, if_true, List.mem_singleton] at hit
            subst hit
            obtain rfl : s2 = s := by injection hdet with h1; injection h1
            simp [hd, ht]
          | map entries =>
            simp only [hd, ht, if_true, List.mem_cons] at hit
            rcases hit with rfl | hit
            · simp at hdet
            · obtain ⟨h1, h2, res, h3⟩ := ih _ _ _ s hs it hit hdet
              refine ⟨h1, ?_, res, ?_⟩
              · simp only [hd, ht, if_true, List.getLast?_cons, h2]
                rfl
              · simp only [hd, ht, if_true, h3]

/-- When the loop ends with a raised exception, the exception is verbatim the
error of the engine pass at the position reached, that pass was the last
engine invocation (no retry), and exactly that many iterations completed. -/
theorem runLoopAux_raised (auto : Option Fields) (ui : Nat → String) :
    ∀ (script : List PassBehavior) (inp : Input) (fr : Option Fields) (k : Nat)
      (e : String), (runLoopAux auto ui script inp fr k).exit = .raised e →
      ∃ i st, script.get? i = some ⟨.error e, st⟩ ∧
        (runLoopAux auto ui script inp fr k).inputs.length = i + 1 ∧
        (runLoopAux auto ui script inp fr k).iters.length = i := by
  intro script
  induction script with
  | nil => intro inp fr k e h; simp [runLoopAux] at h
  | cons p rest ih =>
    intro inp fr k e h
    obtain ⟨events, state⟩ := p
    cases events with
    | error e2 =>
      obtain rfl : e2 = e := by
        simp only [runLoopAux, RunExit.raised.injEq] at h
        exact h
      exact ⟨0, state, rfl, rfl, rfl⟩
    | ok evs =>
      simp only [runLoopAux] at h ⊢
      cases hd : check_for_interrupt state with
      | none => simp [hd] at h
      | some pl =>
        cases ht : pl.isTruthy with
        | false => simp [hd, ht] at h
        | true =>
          cases pl with
          | str s => simp [hd, ht] at h
          | map entries =>
            simp only [hd, ht, if_true] at h ⊢
            obtain ⟨i, st, hget, hlen, hil⟩ := ih _ _ _ e h
            exact ⟨i + 1, st, hget, by simp [hlen], by simp [hil]⟩

/-- Every completion candidate has a present, non-empty `final_report`. -/
theorem lastFinal_hasNonempty (seen : List Event) (f : Fields)
    (h : lastFinal seen = some f) : hasNonemptyFinal f = true := by
  have hf : f ∈ finalCandidates seen :=
    List.mem_of_mem_getLast? (by rw [lastFinal] at h; exact h)
  rw [finalCandidates, List.mem_filterMap] at hf
  obtain ⟨o, _, ho⟩ := hf
  cases o with
  | none => simp [completionOf] at ho
  | some g =>
    simp only [completionOf] at ho
    by_cases hg : hasNonemptyFinal g = true
    · rw [if_pos hg, Option.some.injEq] at ho
      rwa [← ho]
    · rw [if_neg hg] at ho
      exact absurd ho (by simp)

/-- Under the data-model typing, the source's scan coincides with the spec's
"first interrupt of the first task carrying a non-empty interrupt list". -/
theorem scanTasks_eq_firstTaskInterrupt :
    ∀ (tasks : List Task), TasksWellFormed tasks →
      scanTasks tasks = firstTaskInterrupt tasks := by
  intro tasks
  induction tasks with
  | nil => intro _; rfl
  | cons t rest ih =>
    intro wf
    obtain ⟨l, hl, hvals⟩ := wf t (List.mem_cons_self t rest)
    have wfrest : TasksWellFormed rest := fun u hu => wf u (List.mem_cons_of_mem _ hu)
    cases l with
    | nil =>
      rw [scanTasks]
      simp only [hl, List.isEmpty_nil, if_true]
      rw [ih wfrest, firstTaskInterrupt, firstTaskInterrupt]
      rw [List.find?_cons]
      simp [hl]
    | cons i l2 =>
      obtain ⟨pv, hpv⟩ := hvals i (List.mem_cons_self i l2)
      rw [scanTasks]
      simp only [hl, List.isEmpty_cons, Bool.false_eq_true, if_false]
      rw [firstValueOf]
      simp only [hpv]
      rw [firstTaskInterrupt, List.find?_cons]
      simp [hl, hpv]

/-- C1 (counterexample): a pass streams a non-empty `final_report`, yet —
because a map-shaped interrupt is pending — the loop feeds a further resume
input to the engine and performs a further streaming pass, contradicting
"transitions to COMPLETED and stops" right after the artifact was observed. -/
theorem C1_counterexample :
    processPass none [[("writer", some [("final_report", "R")])]] =
        some [("final_report", "R")] ∧
    (run_with_streaming_and_interrupt
        [⟨.ok [[("writer", some [("final_report", "R")])]],
          some ⟨[], [⟨some [⟨some (.map [("type", "t")])⟩]⟩]⟩⟩,
         ⟨.ok [], none⟩]
        "q" (some [("t", "go")]) (fun _ => "")).inputs =
      [.fresh "q", .resume "go"] := by
  decide

/-- C1 (amended): after a streaming pass the loop always runs the interrupt
detector; it transitions to completed-and-stops (with the pass's observed
artifact) when detection returns no interrupt, but when a non-empty
map-shaped interrupt is detected it feeds a further input to the engine even
if a non-empty `final_report` was observed during the pass. -/
theorem C1_stop_iff_no_interrupt (p : PassBehavior) (rest : List PassBehavior)
    (q : String) (auto : Option Fields) (ui : Nat → String)
    (evs : List Event) (hev : p.events = .ok evs) :
    (check_for_interrupt p.state = none →
      (run_with_streaming_and_interrupt (p :: rest) q auto ui).exit =
          .completed (processPass none evs) ∧
      (run_with_streaming_and_interrupt (p :: rest) q auto ui).inputs =
          [.fresh q]) ∧
    (∀ entries, check_for_interrupt p.state = some (.map entries) →
      entries ≠ [] →
      2 ≤ (run_with_streaming_and_interrupt (p :: rest) q auto ui).inputs.length) := by
  obtain ⟨events, state⟩ := p
  obtain rfl : events = .ok evs := hev
  constructor
  · intro hd
    simp only [run_with_streaming_and_interrupt, runLoopAux, hd]
    constructor <;> first | rfl | trivial
  · intro entries hd hne
    have ht : (Payload.map entries).isTruthy = true := by
      simp [Payload.isTruthy, List.isEmpty_iff, hne]
    simp only [run_with_streaming_and_interrupt, runLoopAux, hd, ht, if_true]
    rw [List.length_cons, runLoopAux_inputs, List.length_cons]
    omega

/-- Witness for C1 (amended): both branches at concrete runs — a clean pass
stops the loop, a pass with a pending map interrupt leads to a second input. -/
theorem C1_stop_iff_no_interrupt_witness :
    (run_with_streaming_and_interrupt
        [⟨.ok [[("w", some [("final_report", "R")])]], none⟩] "q" none
        (fun _ => "")).exit =
      .completed (processPass none [[("w", some [("final_report", "R")])]]) ∧
    2 ≤ (run_with_streaming_and_interrupt
        [⟨.ok [[("w", some [("final_report", "R")])]],
          some ⟨[], [⟨some [⟨some (.map [("type", "t")])⟩]⟩]⟩⟩] "q" none
        (fun _ => "a")).inputs.length :=
  ⟨((C1_stop_iff_no_interrupt ⟨.ok [[("w", some [("final_report", "R")])]], none⟩
      [] "q" none (fun _ => "") [[("w", some [("final_report", "R")])]] rfl).1
      (by decide)).1,
   (C1_stop_iff_no_interrupt
      ⟨.ok [[("w", some [("final_report", "R")])]],
        some ⟨[], [⟨some [⟨some (.map [("type", "t")])⟩]⟩]⟩⟩
      [] "q" none (fun _ => "a") [[("w", some [("final_report", "R")])]] rfl).2
      [("type", "t")] (by decide) (by decide)⟩

/-- C3 (counterexample): a detected interrupt payload that is a bare *empty*
string is falsy in Python, so the loop breaks through the no-interrupt branch
and completes normally instead of stopping with an unresolvable-interrupt
condition. -/
theorem C3_counterexample :
    (run_with_streaming_and_interrupt
        [⟨.ok [], some ⟨[], [⟨some [⟨some (.str "")⟩]⟩]⟩⟩] "q" none
        (fun _ => "x")).iters = [⟨some (.str ""), none⟩] ∧
    (run_with_streaming_and_interrupt
        [⟨.ok [], some ⟨[], [⟨some [⟨some (.str "")⟩]⟩]⟩⟩] "q" none
        (fun _ => "x")).exit = .completed none := by
  decide

/-- C3 (amended): for every detected interrupt payload that is a *non-empty*
bare string (truthy non-map), the iteration submits no resume command, is the
final iteration, and the loop stops reporting the raw payload as
unresolvable (no dictionary-style access is attempted on it). -/
theorem C3_truthy_nonmap_aborts (script : List PassBehavior) (q : String)
    (auto : Option Fields) (ui : Nat → String) (s : String) (hs : s ≠ "")
    (it : IterRecord)
    (hit : it ∈ (run_with_streaming_and_interrupt script q auto ui).iters)
    (hdet : it.detected = some (.str s)) :
    it.resumed = none ∧
    (run_with_streaming_and_interrupt script q auto ui).iters.getLast? =
        some it ∧
    ∃ res, (run_with_streaming_and_interrupt script q auto ui).exit =
        .unresolvable (.str s) res :=
  runLoopAux_str_detected auto ui script (.fresh q) none 0 s hs it hit hdet

/-- Witness for C3 (amended): a run detecting the bare string `"boom"`. -/
theorem C3_truthy_nonmap_aborts_witness :
    (⟨some (.str "boom"), none⟩ : IterRecord).resumed = none ∧
    (run_with_streaming_and_interrupt
        [⟨.ok [], some ⟨[], [⟨some [⟨some (.str "boom")⟩]⟩]⟩⟩] "q" none
        (fun _ => "x")).iters.getLast? = some ⟨some (.str "boom"), none⟩ ∧
    ∃ res, (run_with_streaming_and_interrupt
        [⟨.ok [], some ⟨[], [⟨some [⟨some (.str "boom")⟩]⟩]⟩⟩] "q" none
        (fun _ => "x")).exit = .unresolvable (.str "boom") res :=
  C3_truthy_nonmap_aborts _ "q" none (fun _ => "x") "boom" (by decide)
    ⟨some (.str "boom"), none⟩ (by decide) rfl

/-- C4: a resume command is submitted exactly for (and immediately after) an
iteration whose detection returned a truthy map-shaped (hence non-`None`)
interrupt, and the engine inputs are the fresh input followed by exactly
those resume commands in order; in particular no resume is ever submitted
when detection returns `None`. -/
theorem C4_resume_only_after_detection (script : List PassBehavior)
    (q : String) (auto : Option Fields) (ui : Nat → String) :
    (∀ it ∈ (run_with_streaming_and_interrupt script q auto ui).iters,
        (it.resumed.isSome ↔
          ∃ entries, it.detected = some (.map entries) ∧ entries ≠ [])) ∧
    (run_with_streaming_and_interrupt script q auto ui).inputs =
      .fresh q :: ((run_with_streaming_and_interrupt script q auto ui).iters.filterMap
        (·.resumed)).map Input.resume :=
  ⟨fun it hit => runLoopAux_resumed_iff auto ui script (.fresh q) none 0 it hit,
   runLoopAux_inputs auto ui script (.fresh q) none 0⟩

/-- Witness for C4: a run with one resolved interrupt and one completion. -/
theorem C4_resume_only_after_detection_witness :
    ((⟨some (.map [("type", "t")]), some "go"⟩ : IterRecord).resumed.isSome ↔
      ∃ entries,
        (⟨some (.map [("type", "t")]), some "go"⟩ : IterRecord).detected =
            some (.map entries) ∧ entries ≠ []) ∧
    (run_with_streaming_and_interrupt
        [⟨.ok [], some ⟨[], [⟨some [⟨some (.map [("type", "t")])⟩]⟩]⟩⟩,
         ⟨.ok [], none⟩] "q" (some [("t", "go")]) (fun _ => "")).inputs =
      .fresh "q" :: (((run_with_streaming_and_interrupt
        [⟨.ok [], some ⟨[], [⟨some [⟨some (.map [("type", "t")])⟩]⟩]⟩⟩,
         ⟨.ok [], none⟩] "q" (some [("t", "go")]) (fun _ => "")).iters.filterMap
        (·.resumed)).map Input.resume) :=
  ⟨(C4_resume_only_after_detection
      [⟨.ok [], some ⟨[], [⟨some [⟨some (.map [("type", "t")])⟩]⟩]⟩⟩,
       ⟨.ok [], none⟩] "q" (some [("t", "go")]) (fun _ => "")).1
      ⟨some (.map [("type", "t")]), some "go"⟩ (by decide),
   (C4_resume_only_after_detection
      [⟨.ok [], some ⟨[], [⟨some [⟨some (.map [("type", "t")])⟩]⟩]⟩⟩,
       ⟨.ok [], none⟩] "q" (some [("t", "go")]) (fun _ => "")).2⟩

/-- C5: under the data-model typing of §3 (tasks carry an `interrupts`
attribute and interrupt records carry a `value`), `check_for_interrupt`
returns the value of the first interrupt of the first task carrying a
non-empty interrupt list, and `none` when no task carries one. -/
theorem C5_detect_first_task_interrupt (st : ThreadState)
    (hwf : TasksWellFormed st.tasks) :
    check_for_interrupt (some st) = firstTaskInterrupt st.tasks := by
  show (if st.tasks.isEmpty then none else scanTasks st.tasks) =
    firstTaskInterrupt st.tasks
  by_cases he : st.tasks.isEmpty
  · rw [if_pos he, List.isEmpty_iff.mp he]
    rfl
  · rw [if_neg he]
    exact scanTasks_eq_firstTaskInterrupt st.tasks hwf

/-- Witness for C5: a state whose second task carries two interrupts. -/
theorem C5_detect_first_task_interrupt_witness :
    check_for_interrupt
        (some ⟨[], [⟨some []⟩,
                    ⟨some [⟨some (.map [("type", "t")])⟩, ⟨some (.str "z")⟩]⟩]⟩) =
      firstTaskInterrupt
        [⟨some []⟩,
         ⟨some [⟨some (.map [("type", "t")])⟩, ⟨some (.str "z")⟩]⟩] := by
  apply C5_detect_first_task_interrupt
  intro t ht
  simp only [List.mem_cons, List.not_mem_nil, or_false] at ht
  rcases ht with rfl | rfl
  · exact ⟨[], rfl, by intro i hi; simp at hi⟩
  · refine ⟨[⟨some (.map [("type", "t")])⟩, ⟨some (.str "z")⟩], rfl, ?_⟩
    intro i hi
    simp only [List.mem_cons, List.not_mem_nil, or_false] at hi
    rcases hi with rfl | rfl
    · exact ⟨_, rfl⟩
    · exact ⟨_, rfl⟩

/-- C6: for a map-shaped payload, resolution reads the payload's type with
default `"unknown"` when absent; if an automated-response mapping is supplied
(truthy) and contains that type, the mapped string is returned without
consuming interactive input; otherwise the externally supplied text is
returned stripped of surrounding whitespace (consuming interactive input). -/
theorem C6_resolution_policy (entries : Fields) (auto : Option Fields)
    (uiText : String) :
    (entries.lookup "type" = none →
      (entries.lookup "type").getD "unknown" = "unknown") ∧
    (∀ r, lookupAuto auto ((entries.lookup "type").getD "unknown") = some r →
      resolveStep entries auto uiText = (r, false)) ∧
    (lookupAuto auto ((entries.lookup "type").getD "unknown") = none →
      resolveStep entries auto uiText = (pyStrip uiText, true)) := by
  refine ⟨?_, ?_, ?_⟩
  · intro h; rw [h]; rfl
  · intro r h; simp [resolveStep, h]
  · intro h; simp [resolveStep, h]

/-- Witness for C6: the automated branch matches type `"t"` without touching
the interactive text; the interactive branch strips the typed reply. -/
theorem C6_resolution_policy_witness :
    resolveStep [("type", "t")] (some [("t", "auto-answer")]) "  typed  " =
        ("auto-answer", false) ∧
    resolveStep [("question", "?")] none "  typed  " =
        (pyStrip "  typed  ", true) :=
  ⟨(C6_resolution_policy [("type", "t")] (some [("t", "auto-answer")])
      "  typed  ").2.1 "auto-answer" (by decide),
   (C6_resolution_policy [("question", "?")] none "  typed  ").2.2 (by decide)⟩

/-- C7: result extraction prefers the loop's returned `output_fields` (which,
when present, always contains a non-empty `final_report`); otherwise it reads
`final_report` from the persisted state values when present, and otherwise
yields `none`.  In particular, when streaming never observed a
`final_report`, a persisted value is returned. -/
theorem C7_extract_preference (script : List PassBehavior) (q : String)
    (auto : Option Fields) (ui : Nat → String) (fs : Option ThreadState)
    (r : Option Fields)
    (hret : returnedResult
      (run_with_streaming_and_interrupt script q auto ui).exit = some r) :
    (∀ f, r = some f →
        extract r fs = f.lookup "final_report" ∧
        (f.lookup "final_report").isSome) ∧
    (r = none → ∀ st v, fs = some st →
        st.values.lookup "final_report" = some v → extract r fs = some v) ∧
    (r = none → fs = none → extract r fs = none) ∧
    (r = none → ∀ st, fs = some st →
        st.values.lookup "final_report" = none → extract r fs = none) := by
  have hinv : ∀ f, r = some f → hasNonemptyFinal f = true := by
    intro f hf
    have h1 := runLoopAux_returned auto ui script (.fresh q) none 0 r hret
    rw [overrideWith_id] at h1
    exact lastFinal_hasNonempty _ f (by rw [← h1]; exact hf)
  refine ⟨?_, ?_, ?_, ?_⟩
  · intro f hf
    subst hf
    have hne := hinv f rfl
    rw [hasNonemptyFinal] at hne
    cases hl : f.lookup "final_report" with
    | none => rw [hl] at hne; simp at hne
    | some v =>
      have hfe : f.isEmpty = false := by
        cases f with
        | nil => simp [List.lookup] at hl
        | cons a l => rfl
      refine ⟨?_, by simp [hl]⟩
      show extract (some f) fs = _
      simp [extract, hfe, hl]
  · intro hr st v hfs hv
    subst hr; subst hfs
    show fallbackExtract (some st) = some v
    have hve : st.values.isEmpty = false := by
      cases hsv : st.values with
      | nil => rw [hsv] at hv; simp [List.lookup] at hv
      | cons a l => rfl
    simp [fallbackExtract, hve, hv]
  · intro hr hfs
    subst hr; subst hfs
    rfl
  · intro hr st hfs hv
    subst hr; subst hfs
    show fallbackExtract (some st) = none
    by_cases h : st.values.isEmpty <;> simp [fallbackExtract, h, hv]

/-- Witness for C7: a run that streams no `final_report` at all, with a
persisted state that does contain one — the persisted value is extracted. -/
theorem C7_extract_preference_witness :
    extract none (some ⟨[("final_report", "P")], []⟩) = some "P" :=
  (C7_extract_preference [⟨.ok [], none⟩] "q" none (fun _ => "")
      (some ⟨[("final_report", "P")], []⟩) none (by decide)).2.1 rfl
    ⟨[("final_report", "P")], []⟩ "P" rfl (by decide)

/-- C8: interrupt detection treats an absent `ThreadState` as "no interrupt"
rather than an error, and likewise a state with an empty task list. -/
theorem C8_absent_state_no_interrupt (st : ThreadState) (h : st.tasks = []) :
    check_for_interrupt none = none ∧ check_for_interrupt (some st) = none := by
  refine ⟨rfl, ?_⟩
  show (if st.tasks.isEmpty then none else scanTasks st.tasks) = none
  rw [h]
  rfl

/-- Witness for C8: a fresh thread and a task-free state with values. -/
theorem C8_absent_state_no_interrupt_witness :
    check_for_interrupt none = none ∧
    check_for_interrupt (some ⟨[("final_report", "P")], []⟩) = none :=
  C8_absent_state_no_interrupt ⟨[("final_report", "P")], []⟩ rfl

/-- C9: an exception raised by the engine while streaming is not caught,
suppressed or retried: the loop's outcome is exactly that exception with its
message preserved, independent of any later scripted passes, and whenever a
run ends in a raised exception it is verbatim the engine error of the last
pass attempted, with no further engine input afterwards. -/
theorem C9_engine_exception_propagates (script : List PassBehavior)
    (q : String) (auto : Option Fields) (ui : Nat → String) :
    (∀ st tail e, script = ⟨.error e, st⟩ :: tail →
        run_with_streaming_and_interrupt script q auto ui =
          ⟨[.fresh q], [], [], .raised e⟩) ∧
    (∀ e, (run_with_streaming_and_interrupt script q auto ui).exit =
          .raised e →
        ∃ i st, script.get? i = some ⟨.error e, st⟩ ∧
          (run_with_streaming_and_interrupt script q auto ui).inputs.length =
            i + 1 ∧
          (run_with_streaming_and_interrupt script q auto ui).iters.length =
            i) := by
  constructor
  · intro st tail e hs
    subst hs
    rfl
  · intro e h
    exact runLoopAux_raised auto ui script (.fresh q) none 0 e h

/-- Witness for C9: a first pass raising `ValueError: boom` ends the run with
that exact error, even though a further scripted pass existed. -/
theorem C9_engine_exception_propagates_witness :
    run_with_streaming_and_interrupt
        [⟨.error "ValueError: boom", none⟩, ⟨.ok [], none⟩] "q" none
        (fun _ => "") =
      ⟨[.fresh "q"], [], [], .raised "ValueError: boom"⟩ :=
  (C9_engine_exception_propagates
      [⟨.error "ValueError: boom", none⟩, ⟨.ok [], none⟩] "q" none
      (fun _ => "")).1 none [⟨.ok [], none⟩] "ValueError: boom" rfl

/-- C10: when the automated-response mapping resolves the interrupt, the
response placed in the resume command is the mapped string itself (verbatim,
no whitespace stripping); only interactively entered text is stripped of
surrounding whitespace. -/
theorem C10_auto_verbatim_interactive_stripped (entries : Fields)
    (auto : Option Fields) (uiText : String) :
    ((resolveStep entries auto uiText).2 = false →
      lookupAuto auto ((entries.lookup "type").getD "unknown") =
        some (resolveStep entries auto uiText).1) ∧
    ((resolveStep entries auto uiText).2 = true →
      (resolveStep entries auto uiText).1 = pyStrip uiText) := by
  cases h : lookupAuto auto ((entries.lookup "type").getD "unknown") with
  | some r =>
    constructor
    · intro _; simp [resolveStep, h]
    · intro hb; simp [resolveStep, h] at hb
  | none =>
    constructor
    · intro hb; simp [resolveStep, h] at hb
    · intro _; simp [resolveStep, h]

/-- Witness for C10: a mapped response with surrounding whitespace is passed
through verbatim; an interactive reply is stripped. -/
theorem C10_auto_verbatim_interactive_stripped_witness :
    lookupAuto (some [("t", "  padded  ")])
        (([("type", "t")].lookup "type").getD "unknown") =
      some (resolveStep [("type", "t")] (some [("t", "  padded  ")]) "zzz").1 ∧
    (resolveStep [("type", "x")] none "  reply  ").1 = pyStrip "  reply  " :=
  ⟨(C10_auto_verbatim_interactive_stripped [("type", "t")]
      (some [("t", "  padded  ")]) "zzz").1 (by decide),
   (C10_auto_verbatim_interactive_stripped [("type", "x")] none
      "  reply  ").2 (by decide)⟩

end Pipeline
